import Mathlib

/-!
Verification of the QAHA viewer (`quran_interpretations_app.py`).

The program is a two-stage pipeline:
* a loader (`load_all_data`) that fetches one CSV table per model, tags each
  row with the model's display name, concatenates the tables, normalises the
  column names, coerces `chapter`/`verse` to integers and drops rows where the
  coercion fails;
* a view stage (`main`) that filters the merged table to one chapter/verse and
  a chosen model set, and renders a shared original-text header plus one
  section per model, sorted by model name.

We embed both stages shallowly: DataFrames become a column list plus a list of
cell rows; pandas NaN becomes `Cell.na`; Python floats become `Rat` (the
values appearing here are small decimal literals, for which this is exact);
failures raised by pandas become `Except.error`.
-/

namespace QAHA

/-! ### Python string primitives

`pyStrip` models `str.strip()` (ASCII whitespace suffices for the data in
scope), `pyLower` models `str.lower()` on ASCII letters, `pyRemoveSuffix`
models `str.removesuffix`, and `strLe` is Python's `<=` on strings:
lexicographic comparison of code points. -/

def isPySpace (c : Char) : Bool :=
  c = ' ' || c = '\t' || c = '\n' || c = '\r' || c = '\x0b' || c = '\x0c'

def pyStripList (l : List Char) : List Char :=
  ((l.dropWhile isPySpace).reverse.dropWhile isPySpace).reverse

def pyStrip (s : String) : String :=
  String.mk (pyStripList s.data)

def pyLowerChar (c : Char) : Char :=
  if 65 ≤ c.toNat ∧ c.toNat ≤ 90 then Char.ofNat (c.toNat + 32) else c

def pyLower (s : String) : String :=
  String.mk (s.data.map pyLowerChar)

def pyRemoveSuffix (s suffix : String) : String :=
  if suffix.data.isSuffixOf s.data then
    String.mk (s.data.take (s.data.length - suffix.data.length))
  else s

/-- Lexicographic comparison of code-point lists (Python string `<=`). -/
def listCharLe : List Char → List Char → Bool
  | [], _ => true
  | _ :: _, [] => false
  | a :: as, b :: bs =>
    if a.toNat < b.toNat then true
    else if b.toNat < a.toNat then false
    else listCharLe as bs

def strLe (a b : String) : Bool :=
  listCharLe a.data b.data

/-! ### Numeric coercion

`parseNumeric` models `pd.to_numeric(·, errors="coerce")` on a string cell:
an optionally signed decimal literal (integer part, optional fractional part),
surrounded by optional whitespace; anything else coerces to NaN.  `truncRat`
models the C-style float→int cast of `astype(int)`: truncation toward zero. -/

def digitsToNat (l : List Char) : Nat :=
  l.foldl (fun n c => 10 * n + (c.toNat - 48)) 0

def isDigitChar (c : Char) : Bool :=
  48 ≤ c.toNat && c.toNat ≤ 57

def ratOfParts (neg : Bool) (ip fp fplen : Nat) : Rat :=
  let n : Int := Int.ofNat (ip * 10 ^ fplen + fp)
  mkRat (if neg then -n else n) (10 ^ fplen)

def parseNumeric (s : String) : Option Rat :=
  let cs := pyStripList s.data
  let signed : Bool × List Char :=
    match cs with
    | c :: rest =>
      if c = '-' then (true, rest)
      else if c = '+' then (false, rest) else (false, cs)
    | [] => (false, [])
  let ip := signed.2.takeWhile isDigitChar
  let rest := signed.2.dropWhile isDigitChar
  match rest with
  | [] => if ip.isEmpty then none else some (ratOfParts signed.1 (digitsToNat ip) 0 0)
  | c :: rest2 =>
    if c = '.' then
      let fp := rest2.takeWhile isDigitChar
      let rest3 := rest2.dropWhile isDigitChar
      if rest3.isEmpty && !(ip.isEmpty && fp.isEmpty) then
        some (ratOfParts signed.1 (digitsToNat ip) (digitsToNat fp) fp.length)
      else none
    else none

def truncRat (q : Rat) : Int :=
  Int.tdiv q.num (Int.ofNat q.den)

/-! ### DataFrame model -/

/-- One cell of a pandas DataFrame.  `na` is NaN (also a missing value created
by column alignment in `pd.concat`). -/
inductive Cell where
  | na : Cell
  | str : String → Cell
  | int : Int → Cell
  | num : Rat → Cell
deriving DecidableEq, Repr

/-- A DataFrame: named columns and rows of cells (row `r` has the cell of
column `cols[k]` at position `k`; `colIndex?` resolves a label to the first
matching position, as pandas label lookup does for unique labels). -/
structure DataFrame where
  cols : List String
  rows : List (List Cell)
deriving DecidableEq, Repr

instance {ε α : Type} [DecidableEq ε] [DecidableEq α] : DecidableEq (Except ε α) :=
  fun a b =>
    match a, b with
    | Except.ok x, Except.ok y =>
      if h : x = y then isTrue (by rw [h])
      else isFalse (fun hh => h (Except.noConfusion hh id))
    | Except.error x, Except.error y =>
      if h : x = y then isTrue (by rw [h])
      else isFalse (fun hh => h (Except.noConfusion hh id))
    | Except.ok _, Except.error _ => isFalse (fun hh => Except.noConfusion hh)
    | Except.error _, Except.ok _ => isFalse (fun hh => Except.noConfusion hh)

/-- Index of the first column with the given name. -/
def colIndex? : List String → String → Option Nat
  | [], _ => none
  | c :: rest, name =>
    if c = name then some 0 else (colIndex? rest name).map (· + 1)

/-- Number of columns carrying the given name. -/
def countCol : List String → String → Nat
  | [], _ => 0
  | c :: rest, name => (if c = name then 1 else 0) + countCol rest name

/-- The cell of row `row` in the (first) column labelled `name`; `na` when the
label is absent. -/
def colCellOf (cols : List String) (row : List Cell) (name : String) : Cell :=
  match colIndex? cols name with
  | some i => row.getD i Cell.na
  | none => Cell.na

/-- `df["Model"] = display_name`: overwrite the column when present, append it
otherwise. -/
def tagModel (df : DataFrame) (name : String) : DataFrame :=
  match colIndex? df.cols "Model" with
  | some i => ⟨df.cols, df.rows.map (fun r => r.set i (Cell.str name))⟩
  | none => ⟨df.cols ++ ["Model"], df.rows.map (fun r => r ++ [Cell.str name])⟩

/-- Column union in order of first appearance, as `pd.concat` computes the
result columns for frames with differing schemas. -/
def unionCols (frames : List DataFrame) : List String :=
  frames.foldl (fun acc g => acc ++ g.cols.filter (fun c => !(decide (c ∈ acc)))) []

/-- Re-express a row over the union column list: cells of absent columns
become NaN. -/
def alignRow (cols ucols : List String) (row : List Cell) : List Cell :=
  ucols.map (fun c =>
    match colIndex? cols c with
    | some i => row.getD i Cell.na
    | none => Cell.na)

/-- `pd.concat(frames, ignore_index=True)`. -/
def concatFrames (frames : List DataFrame) : DataFrame :=
  let ucols := unionCols frames
  ⟨ucols, (frames.map (fun g => g.rows.map (alignRow g.cols ucols))).flatten⟩

/-- `c.strip().lower()` applied to a column name. -/
def normalizeName (c : String) : String :=
  pyLower (pyStrip c)

/-- `combined.columns = [c.strip().lower() for c in combined.columns]`. -/
def normalizeCols (df : DataFrame) : DataFrame :=
  ⟨df.cols.map normalizeName, df.rows⟩

/-- `pd.to_numeric(cell, errors="coerce")` on one cell. -/
def toNumericCell : Cell → Cell
  | Cell.na => Cell.na
  | Cell.str s =>
    match parseNumeric s with
    | some q => Cell.num q
    | none => Cell.na
  | Cell.int n => Cell.int n
  | Cell.num q => Cell.num q

/-- `astype(int)` value of an already-coerced numeric cell. -/
def cellTruncInt : Cell → Int
  | Cell.int n => n
  | Cell.num q => truncRat q
  | _ => 0

/-- One row's cell at column `k` coerced with `pd.to_numeric`. -/
def coerceRow (k : Nat) (r : List Cell) : List Cell :=
  r.set k (toNumericCell (r.getD k Cell.na))

/-- The `dropna(subset=["chapter", "verse"])` row predicate, `chapter` at
column `i` and `verse` at column `j`. -/
def keepRow (i j : Nat) (r : List Cell) : Bool :=
  decide (r.getD i Cell.na ≠ Cell.na ∧ r.getD j Cell.na ≠ Cell.na)

/-- One row's cell at column `k` cast with `astype(int)` (the cell is a
numeric non-NaN when this is reached). -/
def castRow (k : Nat) (r : List Cell) : List Cell :=
  r.set k (Cell.int (cellTruncInt (r.getD k Cell.na)))

/-- `combined[name] = pd.to_numeric(combined[name], errors="coerce")`.
Label lookup on a missing label raises `KeyError`; on duplicate labels it
yields a two-column DataFrame, on which `pd.to_numeric` raises a
`TypeError` — both become `Except.error`. -/
def coerceCol (df : DataFrame) (name : String) : Except String DataFrame :=
  match colIndex? df.cols name with
  | none => Except.error ("KeyError: " ++ name)
  | some i =>
    if countCol df.cols name = 1 then
      Except.ok ⟨df.cols, df.rows.map (coerceRow i)⟩
    else Except.error "TypeError: arg must be a list, tuple, 1-d array, or Series"

/-- `combined.dropna(subset=["chapter", "verse"], inplace=True)`.  (Reached
only after both coercions succeeded, i.e. with unique labels.) -/
def dropnaCV (df : DataFrame) : Except String DataFrame :=
  match colIndex? df.cols "chapter", colIndex? df.cols "verse" with
  | some i, some j => Except.ok ⟨df.cols, df.rows.filter (keepRow i j)⟩
  | _, _ => Except.error "KeyError: dropna subset"

/-- `astype(int)` on one cell: floats truncate toward zero; NaN (excluded
beforehand by `dropna`) and non-numeric cells raise. -/
def astypeIntCell : Cell → Except String Cell
  | Cell.int n => Except.ok (Cell.int n)
  | Cell.num q => Except.ok (Cell.int (truncRat q))
  | Cell.na => Except.error "ValueError: cannot convert NA to integer"
  | Cell.str s => Except.error ("ValueError: invalid literal for int(): " ++ s)

/-- Error-propagating map over a list (the whole column cast fails if any
cell does). -/
def exceptMapList (f : α → Except String β) : List α → Except String (List β)
  | [] => Except.ok []
  | a :: l =>
    match f a with
    | Except.error e => Except.error e
    | Except.ok b =>
      match exceptMapList f l with
      | Except.error e => Except.error e
      | Except.ok bs => Except.ok (b :: bs)

/-- `combined[name] = combined[name].astype(int)`. -/
def astypeIntCol (df : DataFrame) (name : String) : Except String DataFrame :=
  match colIndex? df.cols name with
  | none => Except.error ("KeyError: " ++ name)
  | some i =>
    match exceptMapList
        (fun r =>
          match astypeIntCell (r.getD i Cell.na) with
          | Except.error e => Except.error e
          | Except.ok c => Except.ok (r.set i c)) df.rows with
    | Except.error e => Except.error e
    | Except.ok rs => Except.ok ⟨df.cols, rs⟩

/-- Lines 75–79 of the source: coerce `chapter`, coerce `verse`, drop rows
with a missing value in either, cast both columns to integer. -/
def normalizePipeline (combined : DataFrame) : Except String DataFrame :=
  match coerceCol combined "chapter" with
  | Except.error e => Except.error e
  | Except.ok a =>
    match coerceCol a "verse" with
    | Except.error e => Except.error e
    | Except.ok b =>
      match dropnaCV b with
      | Except.error e => Except.error e
      | Except.ok c =>
        match astypeIntCol c "chapter" with
        | Except.error e => Except.error e
        | Except.ok d =>
          match astypeIntCol d "verse" with
          | Except.error e => Except.error e
          | Except.ok f => Except.ok f

/-! ### The loader -/

def CSV_FILES : List String :=
  ["Claude_haiku.csv", "Claude_opus.csv", "Claude_sonnet.csv",
   "Claude_sonnet_3.5.csv", "GPT3.csv", "GPT4Turbo.csv", "GPT4o.csv",
   "GPT4oMini.csv", "Grok2.csv", "Llama2.csv", "Llama3.csv", "Mixtral.csv",
   "gemini_1.5_flash.csv", "gemini_1.5_pro.csv", "gemini_2.0_flash.csv"]

def MODEL_DISPLAY_NAMES : List (String × String) :=
  [("Claude_haiku", "Claude Haiku"), ("Claude_opus", "Claude Opus"),
   ("Claude_sonnet", "Claude Sonnet"), ("Claude_sonnet_3.5", "Claude Sonnet 3.5"),
   ("GPT3", "GPT-3"), ("GPT4Turbo", "GPT-4 Turbo"), ("GPT4o", "GPT-4o"),
   ("GPT4oMini", "GPT-4o Mini"), ("Grok2", "Grok 2"), ("Llama2", "Llama 2"),
   ("Llama3", "Llama 3"), ("Mixtral", "Mixtral"),
   ("gemini_1.5_flash", "Gemini 1.5 Flash"), ("gemini_1.5_pro", "Gemini 1.5 Pro"),
   ("gemini_2.0_flash", "Gemini 2.0 Flash")]

def lookupName : List (String × String) → String → Option String
  | [], _ => none
  | (k, v) :: rest, key => if k = key then some v else lookupName rest key

/-- `MODEL_DISPLAY_NAMES.get(model_key, model_key)` with
`model_key = filename.removesuffix(".csv")`. -/
def displayNameOf (filename : String) : String :=
  let key := pyRemoveSuffix filename ".csv"
  (lookupName MODEL_DISPLAY_NAMES key).getD key

/-- One iteration of the fetch loop: a successful fetch+parse appends the
tagged frame, a failure appends `f"{display_name}: {e}"` to the error list.
The fetch-and-parse of one file is abstracted as `fetch`. -/
def loadStep (fetch : String → Except String DataFrame)
    (acc : List DataFrame × List String) (filename : String) :
    List DataFrame × List String :=
  match fetch filename with
  | Except.ok df => (acc.1 ++ [tagModel df (displayNameOf filename)], acc.2)
  | Except.error e => (acc.1, acc.2 ++ [displayNameOf filename ++ ": " ++ e])

/-- The whole fetch loop of `load_all_data`. -/
def loadLoop (files : List String) (fetch : String → Except String DataFrame) :
    List DataFrame × List String :=
  files.foldl (loadStep fetch) ([], [])

/-- The concatenated, column-normalised table (`none` when no resource
succeeded, in which case the source calls `st.error` and `st.stop`). -/
def combinedNormOf (files : List String) (fetch : String → Except String DataFrame) :
    Option DataFrame :=
  let frames := (loadLoop files fetch).1
  if frames.isEmpty then none
  else some (normalizeCols (concatFrames frames))

def loadFailMsg : String :=
  "Failed to load any data. Check your internet connection."

/-- `load_all_data`, generalised over the file list and the fetch outcomes.
An `Except.error` is either the `st.stop` of the no-frames branch or an
exception escaping the (un-guarded) normalisation code. -/
def load_all_from (files : List String) (fetch : String → Except String DataFrame) :
    Except String (DataFrame × List String) :=
  match combinedNormOf files fetch with
  | none => Except.error loadFailMsg
  | some combined =>
    match normalizePipeline combined with
    | Except.error e => Except.error e
    | Except.ok df => Except.ok (df, (loadLoop files fetch).2)

/-- The source's `load_all_data` iterates the fixed `CSV_FILES` list. -/
def load_all_data (fetch : String → Except String DataFrame) :
    Except String (DataFrame × List String) :=
  load_all_from CSV_FILES fetch

/-! ### The view stage

The spec's `VerseRecord` is one row of the merged table as the view accesses
it: `row["model"]`, `row["orig"]`, `row.get("translation", "")`,
`row.get("interpretation", "")`.  A pandas NaN and a missing column both read
as `none` (for `row.get` the default `""` is blank after stripping, which the
rendering treats exactly like a missing value). -/

structure VerseRecord where
  chapter : Int
  verse : Int
  model : String
  orig : Option String
  translation : Option String
  interpretation : Option String
deriving DecidableEq, Repr

/-- The boolean mask of lines 150–154:
`(chapter == c) & (verse == v) & model.isin(models)`. -/
def matchesSelection (c v : Int) (models : List String) (r : VerseRecord) : Bool :=
  decide (r.chapter = c ∧ r.verse = v ∧ r.model ∈ models)

/-- `verse_data = data.loc[mask]` (filtering keeps corpus order). -/
def selectRecords (corpus : List VerseRecord) (c v : Int) (models : List String) :
    List VerseRecord :=
  corpus.filter (matchesSelection c v models)

/-- Insert a record into a list sorted by model name. -/
def insertByModel (r : VerseRecord) : List VerseRecord → List VerseRecord
  | [] => [r]
  | x :: xs => if strLe r.model x.model then r :: x :: xs else x :: insertByModel r xs

/-- `verse_data.sort_values("model")`: some reordering of the rows that is
ascending in the model name (realised here as an insertion sort). -/
def sortByModel (l : List VerseRecord) : List VerseRecord :=
  l.foldr insertByModel []

/-- Lines 158–159: the shared header is the first non-NaN `orig` value of the
filtered (not yet sorted) rows, stripped; the header block is omitted when
the column is absent or all its values are NaN. -/
def sharedHeader (rows : List VerseRecord) : Option String :=
  match rows.filterMap (fun r => r.orig) with
  | [] => none
  | t :: _ => some (pyStrip t)

/-- `pd.notna(x) and str(x).strip()` for an optional text field. -/
def nonBlank : Option String → Bool
  | none => false
  | some t => !(pyStrip t = "")

/-- Lines 171–187, one loop body: the markdown blocks emitted for one record.
A heading always; a labelled quoted translation block when the translation is
present and non-blank after stripping; a labelled interpretation block
likewise; a closing divider always. -/
def renderSection (r : VerseRecord) : List String :=
  ["### " ++ r.model]
  ++ (if nonBlank r.translation then
        ["**Translation**", "> " ++ pyStrip (r.translation.getD "")] else [])
  ++ (if nonBlank r.interpretation then
        ["**Interpretation**", pyStrip (r.interpretation.getD "")] else [])
  ++ ["---"]

/-- What the view renders: the "please select at least one model" prompt of
line 146, or a page of an optional shared header followed by the per-model
sections. -/
inductive ViewResult where
  | prompt : ViewResult
  | page : Option String → List (List String) → ViewResult
deriving DecidableEq, Repr

/-- Lines 145–187: short-circuit on an empty model selection, otherwise
filter, render the shared header, and render the sections sorted by model. -/
def runView (corpus : List VerseRecord) (c v : Int) (models : List String) :
    ViewResult :=
  if models.isEmpty then ViewResult.prompt
  else
    let verseData := selectRecords corpus c v models
    ViewResult.page (sharedHeader verseData)
      ((sortByModel verseData).map renderSection)

/-- Reading of a cell as `row[label]`/`row.get(label, default)` followed by
`str(...)` where the view needs text. -/
def cellStr? : Cell → Option String
  | Cell.na => none
  | Cell.str s => some s
  | Cell.int n => some (toString n)
  | Cell.num q => some (toString q)

def cellInt? : Cell → Option Int
  | Cell.int n => some n
  | _ => none

/-- One merged-table row as the view reads it (chapter and verse are integer
cells for every row the loader returns; the `getD 0` default is never the
value read on such rows). -/
def toRecord (cols : List String) (row : List Cell) : VerseRecord :=
  { chapter := (cellInt? (colCellOf cols row "chapter")).getD 0
    verse := (cellInt? (colCellOf cols row "verse")).getD 0
    model := (cellStr? (colCellOf cols row "model")).getD ""
    orig := cellStr? (colCellOf cols row "orig")
    translation := cellStr? (colCellOf cols row "translation")
    interpretation := cellStr? (colCellOf cols row "interpretation") }

def toRecords (df : DataFrame) : List VerseRecord :=
  df.rows.map (toRecord df.cols)

/-- The whole run of `main` for one interaction: a failed load halts the app
(`st.stop` or an uncaught exception) before any selection handling; a
successful load runs the view. -/
inductive AppOutcome where
  | halted : String → AppOutcome
  | view : ViewResult → AppOutcome
deriving DecidableEq, Repr

def runApp (files : List String) (fetch : String → Except String DataFrame)
    (c v : Int) (models : List String) : AppOutcome :=
  match load_all_from files fetch with
  | Except.error e => AppOutcome.halted e
  | Except.ok (df, _errs) => AppOutcome.view (runView (toRecords df) c v models)

/-! ### Memoised loading -/

/-- Modelled from the spec: the `@st.cache_data` decoration of
`load_all_data` is Streamlit library behaviour, not code of this repository.
Per the spec, the load "should be memoized for the life of the running
process ... keyed on the fixed resource list" and "repeated invocations with
the same input must not re-fetch".  The cache state holds the stored result
for the fixed resource list, and the `Nat` component counts the network
fetches the invocation performs (one per file on a cache miss, none on a
hit). -/
def cachedLoadAll (files : List String) (fetch : String → Except String DataFrame)
    (cache : Option (Except String (DataFrame × List String))) :
    Except String (DataFrame × List String)
      × Option (Except String (DataFrame × List String)) × Nat :=
  match cache with
  | some res => (res, some res, 0)
  | none => (load_all_from files fetch, some (load_all_from files fetch), files.length)

/-! ### Characterisation targets

Declarative forms the theorems compare the operational definitions against. -/

/-- What the normalisation pipeline does to one row of the merged table with
`chapter` at column `i` and `verse` at column `j`: coerce both cells, drop the
row if either coercion yields NaN, otherwise cast both cells to integers. -/
def rowPipeline (i j : Nat) (row : List Cell) : Option (List Cell) :=
  let c := toNumericCell (row.getD i Cell.na)
  let r1 := row.set i c
  let v := toNumericCell (r1.getD j Cell.na)
  let r2 := r1.set j v
  if c = Cell.na ∨ v = Cell.na then none
  else some ((r2.set i (Cell.int (cellTruncInt c))).set j (Cell.int (cellTruncInt v)))

/-- The tagged frames of the resources whose fetch+parse succeeded, in list
order. -/
def okFrames (files : List String) (fetch : String → Except String DataFrame) :
    List DataFrame :=
  files.filterMap (fun f =>
    match fetch f with
    | Except.ok df => some (tagModel df (displayNameOf f))
    | Except.error _ => none)

/-- The load-report entries, one per failing resource, in list order. -/
def failReports (files : List String) (fetch : String → Except String DataFrame) :
    List String :=
  files.filterMap (fun f =>
    match fetch f with
    | Except.error e => some (displayNameOf f ++ ": " ++ e)
    | Except.ok _ => none)

/-- The shared header as the spec words it: the first non-missing
`original_text` value "in sorted-model order", stripped. -/
def sharedHeaderSpec (rows : List VerseRecord) : Option String :=
  match (sortByModel rows).filterMap (fun r => r.orig) with
  | [] => none
  | t :: _ => some (pyStrip t)

/-- Is this cell a positive-integer cell? -/
def cellIsPosInt : Cell → Bool
  | Cell.int n => decide (0 < n)
  | _ => false

/-- The invariant claimed of the normalised corpus: every row's `chapter` and
`verse` are positive integers. -/
def corpusChapterVersePos (df : DataFrame) : Prop :=
  ∀ row ∈ df.rows, cellIsPosInt (colCellOf df.cols row "chapter") = true
    ∧ cellIsPosInt (colCellOf df.cols row "verse") = true

/-! ### Concrete data for counterexamples and witnesses -/

/-- A fetch outcome whose single resource parses to a table with a row whose
`chapter` value is the (numeric but non-positive) string "0". -/
def fetchPosCex : String → Except String DataFrame :=
  fun _ => Except.ok ⟨["chapter", "verse", "orig"],
    [[Cell.str "0", Cell.str "1", Cell.str "t"]]⟩

/-- The corpus `load_all` builds from `fetchPosCex`. -/
def dfPosCex : DataFrame :=
  ⟨["chapter", "verse", "orig", "model"],
   [[Cell.int 0, Cell.int 1, Cell.str "t", Cell.str "f"]]⟩

/-- Two resources whose headers differ only in casing. -/
def fetchCaseCex : String → Except String DataFrame :=
  fun f =>
    if f = "a.csv" then
      Except.ok ⟨["Chapter", "Verse"], [[Cell.str "1", Cell.str "1"]]⟩
    else Except.ok ⟨["chapter", "verse"], [[Cell.str "1", Cell.str "2"]]⟩

/-- A single resource with uniformly non-normalised headers. -/
def fetchCaseWit : String → Except String DataFrame :=
  fun _ => Except.ok ⟨["Chapter", " Verse "], [[Cell.str "3", Cell.str "4"]]⟩

/-- Matched records whose corpus order ("B" before "A") disagrees with the
sorted-model order, with differing `orig` values. -/
def hdrRowsCex : List VerseRecord :=
  [⟨1, 1, "B", some "x", none, none⟩, ⟨1, 1, "A", some "y", none, none⟩]

/-- A fetch outcome with a non-integer numeric chapter value "1.9". -/
def fetchTruncWit : String → Except String DataFrame :=
  fun _ => Except.ok ⟨["chapter", "verse"], [[Cell.str "1.9", Cell.str "2"]]⟩

/-- The merged normalised table built from `fetchTruncWit`. -/
def combTruncWit : DataFrame :=
  ⟨["chapter", "verse", "model"], [[Cell.str "1.9", Cell.str "2", Cell.str "f"]]⟩

/-- The corpus built from `fetchTruncWit`. -/
def dfTruncWit : DataFrame :=
  ⟨["chapter", "verse", "model"], [[Cell.int 1, Cell.int 2, Cell.str "f"]]⟩

/-- A mixed fetch outcome: one resource loads, the other fails. -/
def fetchMixWit : String → Except String DataFrame :=
  fun f =>
    if f = "a.csv" then
      Except.ok ⟨["chapter", "verse"], [[Cell.str "1", Cell.str "2"]]⟩
    else Except.error "HTTP 404"

/-- Records for view-stage witnesses. -/
def recA : VerseRecord := ⟨1, 1, "A", some "y", some "alpha", none⟩

def recB : VerseRecord := ⟨1, 1, "B", some "x", none, some "beta"⟩

def exceptIsOk : Except String (DataFrame × List String) → Bool
  | Except.ok _ => true
  | Except.error _ => false

/-! ## Lemmas about cells, rows and column lookup -/

theorem getD_set_self : ∀ (l : List Cell) (k : Nat) (a : Cell), k < l.length →
    (l.set k a).getD k Cell.na = a
  | _ :: _, 0, _, _ => rfl
  | _ :: l, k + 1, a, h => getD_set_self l k a (Nat.lt_of_succ_lt_succ h)
  | [], k, _, h => absurd h (Nat.not_lt_zero k)

theorem getD_set_other : ∀ (l : List Cell) (k m : Nat) (a : Cell), k ≠ m →
    (l.set k a).getD m Cell.na = l.getD m Cell.na
  | [], _, _, _, _ => rfl
  | _ :: _, 0, 0, _, h => absurd rfl h
  | _ :: _, 0, _ + 1, _, _ => rfl
  | _ :: _, _ + 1, 0, _, _ => rfl
  | _ :: l, k + 1, m + 1, a, h =>
    getD_set_other l k m a (fun hh => h (congrArg Nat.succ hh))

theorem getD_na_of_ge : ∀ (l : List Cell) (k : Nat), l.length ≤ k →
    l.getD k Cell.na = Cell.na
  | [], 0, _ => rfl
  | [], _ + 1, _ => rfl
  | _ :: l, k + 1, h => getD_na_of_ge l k (Nat.le_of_succ_le_succ h)
  | _ :: _, 0, h => absurd h (by simp)

theorem toNumericCell_na : toNumericCell Cell.na = Cell.na := rfl

theorem getD_set_toNumeric : ∀ (l : List Cell) (k : Nat),
    (l.set k (toNumericCell (l.getD k Cell.na))).getD k Cell.na
      = toNumericCell (l.getD k Cell.na)
  | [], 0 => rfl
  | [], _ + 1 => rfl
  | _ :: _, 0 => rfl
  | _ :: l, k + 1 => getD_set_toNumeric l k

theorem toNumericCell_ne_str (c : Cell) (s : String) : toNumericCell c ≠ Cell.str s := by
  cases c with
  | na => simp [toNumericCell]
  | str t => cases h : parseNumeric t <;> simp [toNumericCell, h]
  | int n => simp [toNumericCell]
  | num q => simp [toNumericCell]

theorem astypeIntCell_ok_of_coerced (c : Cell) (hna : c ≠ Cell.na)
    (hstr : ∀ s, c ≠ Cell.str s) :
    astypeIntCell c = Except.ok (Cell.int (cellTruncInt c)) := by
  cases c with
  | na => exact absurd rfl hna
  | str s => exact absurd rfl (hstr s)
  | int n => rfl
  | num q => rfl

theorem colIndex?_lookup (cols : List String) (name : String) :
    ∀ i, colIndex? cols name = some i → i < cols.length ∧ cols.getD i "" = name := by
  induction cols with
  | nil => intro i h; simp [colIndex?] at h
  | cons c rest ih =>
    intro i h
    by_cases hc : c = name
    · rw [colIndex?, if_pos hc] at h
      cases h
      exact ⟨Nat.succ_pos _, hc⟩
    · rw [colIndex?, if_neg hc] at h
      cases hk : colIndex? rest name with
      | none => rw [hk] at h; simp at h
      | some k =>
        rw [hk] at h
        simp only [Option.map_some'] at h
        cases h
        obtain ⟨hlt, hget⟩ := ih k hk
        exact ⟨Nat.succ_lt_succ hlt, hget⟩

theorem colIndex?_ne (cols : List String) (a b : String) (i j : Nat)
    (ha : colIndex? cols a = some i) (hb : colIndex? cols b = some j)
    (hab : a ≠ b) : i ≠ j := by
  intro hij
  subst hij
  have h1 := (colIndex?_lookup cols a i ha).2
  have h2 := (colIndex?_lookup cols b i hb).2
  exact hab (h1 ▸ h2 ▸ rfl)

theorem colIndex?_eq_none (cols : List String) (name : String) (h : name ∉ cols) :
    colIndex? cols name = none := by
  induction cols with
  | nil => rfl
  | cons c rest ih =>
    rw [colIndex?,
      if_neg (fun hc => h (by rw [← hc]; exact List.mem_cons_self c rest)),
      ih (fun hm => h (List.mem_cons_of_mem c hm))]
    rfl

theorem colIndex?_of_count_pos : ∀ (cols : List String) (name : String),
    0 < countCol cols name → ∃ i, colIndex? cols name = some i := by
  intro cols name
  induction cols with
  | nil => intro h; simp [countCol] at h
  | cons c rest ih =>
    intro h
    by_cases hc : c = name
    · exact ⟨0, by simp [colIndex?, hc]⟩
    · rw [countCol, if_neg hc] at h
      obtain ⟨k, hk⟩ := ih (by simpa using h)
      exact ⟨k + 1, by simp [colIndex?, hc, hk]⟩

theorem countCol_append : ∀ (l1 l2 : List String) (name : String),
    countCol (l1 ++ l2) name = countCol l1 name + countCol l2 name := by
  intro l1 l2 name
  induction l1 with
  | nil => simp [countCol]
  | cons c rest ih => simp [countCol, ih]; omega

theorem colIndex?_nodup_get : ∀ (cols : List String), cols.Nodup →
    ∀ (k : Nat) (h : k < cols.length), colIndex? cols (cols.getD k "") = some k := by
  intro cols
  induction cols with
  | nil => intro _ k h; exact absurd h (by simp)
  | cons c rest ih =>
    intro hnd k h
    cases k with
    | zero => simp [colIndex?]
    | succ k' =>
      have hk' : k' < rest.length := Nat.lt_of_succ_lt_succ h
      have hmem : rest.getD k' "" ∈ rest := by
        have := List.getD_eq_getElem rest "" hk'
        rw [this]
        exact List.getElem_mem hk'
      have hc : c ≠ (c :: rest).getD (k' + 1) "" := by
        intro hcc
        exact (List.nodup_cons.mp hnd).1 (hcc ▸ hmem)
      rw [colIndex?, if_neg hc]
      have : (c :: rest).getD (k' + 1) "" = rest.getD k' "" := rfl
      rw [this, ih (List.nodup_cons.mp hnd).2 k' hk']
      rfl

theorem exceptMapList_ok {α β : Type} (f : α → Except String β) (g : α → β) :
    ∀ l : List α, (∀ a ∈ l, f a = Except.ok (g a)) →
      exceptMapList f l = Except.ok (l.map g) := by
  intro l
  induction l with
  | nil => intro _; rfl
  | cons a l ih =>
    intro h
    have ha := h a (List.mem_cons_self a l)
    rw [exceptMapList, ha, ih (fun x hx => h x (List.mem_cons_of_mem a hx))]
    rfl

theorem filterMap_eq_map_filter {α β : Type} (rp : α → Option β) (q : α → Bool)
    (g : α → β) (hrp : ∀ a, rp a = if q a = true then some (g a) else none) :
    ∀ l : List α, l.filterMap rp = (l.filter q).map g := by
  intro l
  induction l with
  | nil => rfl
  | cons a l ih =>
    rw [List.filterMap_cons, List.filter_cons, hrp a]
    cases hq : q a with
    | true => simp [ih]
    | false => simp [ih]

/-! ## The normalisation pipeline, characterised -/

theorem coerceCol_ok (df : DataFrame) (name : String) (i : Nat)
    (hi : colIndex? df.cols name = some i) (hc : countCol df.cols name = 1) :
    coerceCol df name = Except.ok ⟨df.cols, df.rows.map (coerceRow i)⟩ := by
  simp [coerceCol, hi, hc]

theorem coerceCol_ok_inv (df d : DataFrame) (name : String)
    (h : coerceCol df name = Except.ok d) :
    ∃ i, colIndex? df.cols name = some i ∧ countCol df.cols name = 1 ∧
      d = ⟨df.cols, df.rows.map (coerceRow i)⟩ := by
  unfold coerceCol at h
  split at h
  · cases h
  · rename_i i hidx
    split at h
    · rename_i hc
      cases h
      exact ⟨i, hidx, hc, rfl⟩
    · cases h

theorem dropnaCV_ok (df : DataFrame) (i j : Nat)
    (hi : colIndex? df.cols "chapter" = some i)
    (hj : colIndex? df.cols "verse" = some j) :
    dropnaCV df = Except.ok ⟨df.cols, df.rows.filter (keepRow i j)⟩ := by
  simp [dropnaCV, hi, hj]

theorem astypeIntCol_ok (df : DataFrame) (name : String) (i : Nat)
    (hi : colIndex? df.cols name = some i)
    (h : ∀ r ∈ df.rows, r.getD i Cell.na ≠ Cell.na ∧
      ∀ s, r.getD i Cell.na ≠ Cell.str s) :
    astypeIntCol df name = Except.ok ⟨df.cols, df.rows.map (castRow i)⟩ := by
  have hm : exceptMapList (fun r =>
      match astypeIntCell (r.getD i Cell.na) with
      | Except.error e => Except.error e
      | Except.ok c => Except.ok (r.set i c)) df.rows
      = Except.ok (df.rows.map (castRow i)) := by
    apply exceptMapList_ok
    intro r hr
    rw [astypeIntCell_ok_of_coerced (r.getD i Cell.na) (h r hr).1 (h r hr).2]
    rfl
  simp only [astypeIntCol, hi, hm]

theorem coerce2_getD_i (i j : Nat) (hij : i ≠ j) (r : List Cell) :
    (coerceRow j (coerceRow i r)).getD i Cell.na
      = toNumericCell (r.getD i Cell.na) := by
  unfold coerceRow
  rw [getD_set_other _ j i _ (fun hh => hij hh.symm)]
  exact getD_set_toNumeric r i

theorem coerce2_getD_j (i j : Nat) (r : List Cell) :
    (coerceRow j (coerceRow i r)).getD j Cell.na
      = toNumericCell ((coerceRow i r).getD j Cell.na) :=
  getD_set_toNumeric (coerceRow i r) j

theorem rowPipeline_eq (i j : Nat) (hij : i ≠ j) (r : List Cell) :
    rowPipeline i j r =
      if keepRow i j (coerceRow j (coerceRow i r)) = true
      then some (castRow j (castRow i (coerceRow j (coerceRow i r))))
      else none := by
  have hji : j ≠ i := fun hh => hij hh.symm
  unfold rowPipeline coerceRow keepRow castRow
  set c := toNumericCell (r.getD i Cell.na) with hc
  set X1 := r.set i c with hX1
  set v := toNumericCell (X1.getD j Cell.na) with hv
  set X2 := X1.set j v with hX2
  have f1 : X2.getD i Cell.na = c := by
    rw [hX2, getD_set_other X1 j i v hji, hX1, hc]
    exact getD_set_toNumeric r i
  have f2 : X2.getD j Cell.na = v := by
    rw [hX2, hv]
    exact getD_set_toNumeric X1 j
  rw [f1, f2]
  by_cases hna : c = Cell.na ∨ v = Cell.na
  · rw [if_pos hna, if_neg]
    simp only [decide_eq_true_eq]
    tauto
  · rw [if_neg hna, if_pos]
    · have f3 : (X2.set i (Cell.int (cellTruncInt c))).getD j Cell.na = v := by
        rw [getD_set_other X2 i j _ hij]
        exact f2
      rw [f3]
    · simp only [decide_eq_true_eq]
      tauto

theorem normalizePipeline_ok (comb : DataFrame) (i j : Nat)
    (hi : colIndex? comb.cols "chapter" = some i)
    (hci : countCol comb.cols "chapter" = 1)
    (hj : colIndex? comb.cols "verse" = some j)
    (hcj : countCol comb.cols "verse" = 1) :
    normalizePipeline comb =
      Except.ok ⟨comb.cols, comb.rows.filterMap (rowPipeline i j)⟩ := by
  have hij : i ≠ j := colIndex?_ne comb.cols "chapter" "verse" i j hi hj (by decide)
  have h1 := coerceCol_ok comb "chapter" i hi hci
  have h2 := coerceCol_ok ⟨comb.cols, comb.rows.map (coerceRow i)⟩ "verse" j hj hcj
  have h3 := dropnaCV_ok
    ⟨comb.cols, (comb.rows.map (coerceRow i)).map (coerceRow j)⟩ i j hi hj
  set l3 := ((comb.rows.map (coerceRow i)).map (coerceRow j)).filter (keepRow i j)
    with hl3
  have hcell : ∀ r ∈ l3,
      (r.getD i Cell.na ≠ Cell.na ∧ ∀ s, r.getD i Cell.na ≠ Cell.str s)
      ∧ (r.getD j Cell.na ≠ Cell.na ∧ ∀ s, r.getD j Cell.na ≠ Cell.str s) := by
    intro r hr
    rw [hl3] at hr
    have hkeep : keepRow i j r = true := List.of_mem_filter hr
    have hmem := List.mem_of_mem_filter hr
    rw [List.map_map] at hmem
    obtain ⟨r0, _, hr0⟩ := List.mem_map.mp hmem
    simp only [Function.comp] at hr0
    have hri : r.getD i Cell.na = toNumericCell (r0.getD i Cell.na) := by
      rw [← hr0]
      exact coerce2_getD_i i j hij r0
    have hrj : r.getD j Cell.na
        = toNumericCell ((coerceRow i r0).getD j Cell.na) := by
      rw [← hr0]
      exact coerce2_getD_j i j r0
    simp only [keepRow, decide_eq_true_eq] at hkeep
    refine ⟨⟨hkeep.1, fun s => ?_⟩, ⟨hkeep.2, fun s => ?_⟩⟩
    · rw [hri]; exact toNumericCell_ne_str _ s
    · rw [hrj]; exact toNumericCell_ne_str _ s
  have h4 := astypeIntCol_ok ⟨comb.cols, l3⟩ "chapter" i hi
    (fun r hr => (hcell r hr).1)
  have hcell5 : ∀ r ∈ l3.map (castRow i),
      r.getD j Cell.na ≠ Cell.na ∧ ∀ s, r.getD j Cell.na ≠ Cell.str s := by
    intro r hr
    obtain ⟨r0, hr0mem, hr0⟩ := List.mem_map.mp hr
    have hunch : (castRow i r0).getD j Cell.na = r0.getD j Cell.na := by
      unfold castRow
      exact getD_set_other r0 i j _ hij
    rw [← hr0, hunch]
    exact (hcell r0 hr0mem).2
  have h5 := astypeIntCol_ok ⟨comb.cols, l3.map (castRow i)⟩ "verse" j hj hcell5
  have hrows : comb.rows.filterMap (rowPipeline i j)
      = (l3.map (castRow i)).map (castRow j) := by
    rw [filterMap_eq_map_filter (rowPipeline i j)
      (fun r0 => keepRow i j (coerceRow j (coerceRow i r0)))
      (fun r0 => castRow j (castRow i (coerceRow j (coerceRow i r0))))
      (rowPipeline_eq i j hij) comb.rows]
    conv_rhs => rw [hl3, List.map_map, List.map_map, List.filter_map, List.map_map]
    rfl
  simp only [normalizePipeline, h1, h2, h3, h4, h5, hrows]

theorem normalizePipeline_ok_inv (comb df : DataFrame)
    (h : normalizePipeline comb = Except.ok df) :
    ∃ i j, colIndex? comb.cols "chapter" = some i
      ∧ countCol comb.cols "chapter" = 1
      ∧ colIndex? comb.cols "verse" = some j
      ∧ countCol comb.cols "verse" = 1 ∧ i ≠ j
      ∧ df = ⟨comb.cols, comb.rows.filterMap (rowPipeline i j)⟩ := by
  have h' := h
  unfold normalizePipeline at h
  split at h
  · cases h
  · rename_i a h1
    obtain ⟨i, hi, hci, ha⟩ := coerceCol_ok_inv comb a "chapter" h1
    split at h
    · cases h
    · rename_i b h2
      obtain ⟨j, hj, hcj, _⟩ := coerceCol_ok_inv a b "verse" h2
      rw [ha] at hj hcj
      have hij : i ≠ j :=
        colIndex?_ne comb.cols "chapter" "verse" i j hi hj (by decide)
      rw [normalizePipeline_ok comb i j hi hci hj hcj, Except.ok.injEq] at h'
      exact ⟨i, j, hi, hci, hj, hcj, hij, h'.symm⟩

theorem load_all_ok_inv (files : List String)
    (fetch : String → Except String DataFrame) (df : DataFrame)
    (errs : List String) (h : load_all_from files fetch = Except.ok (df, errs)) :
    ∃ comb i j, combinedNormOf files fetch = some comb
      ∧ colIndex? comb.cols "chapter" = some i
      ∧ countCol comb.cols "chapter" = 1
      ∧ colIndex? comb.cols "verse" = some j
      ∧ countCol comb.cols "verse" = 1 ∧ i ≠ j
      ∧ df.cols = comb.cols
      ∧ df.rows = comb.rows.filterMap (rowPipeline i j)
      ∧ errs = (loadLoop files fetch).2 := by
  unfold load_all_from at h
  split at h
  · cases h
  · rename_i comb hc
    split at h
    · cases h
    · rename_i d hp
      rw [Except.ok.injEq, Prod.mk.injEq] at h
      obtain ⟨hdf, herrs⟩ := h
      obtain ⟨i, j, hi, hci, hj, hcj, hij, hd⟩ :=
        normalizePipeline_ok_inv comb d hp
      subst hdf
      exact ⟨comb, i, j, hc, hi, hci, hj, hcj, hij,
        by rw [hd], by rw [hd], herrs.symm⟩

/-! ## The fetch loop, characterised -/

theorem loadLoop_foldl (fetch : String → Except String DataFrame) :
    ∀ (files : List String) (acc : List DataFrame × List String),
      files.foldl (loadStep fetch) acc =
        (acc.1 ++ okFrames files fetch, acc.2 ++ failReports files fetch) := by
  intro files
  induction files with
  | nil =>
    intro acc
    simp [okFrames, failReports]
  | cons f fs ih =>
    intro acc
    rw [List.foldl_cons, ih]
    cases hf : fetch f with
    | ok df => simp [loadStep, hf, okFrames, failReports, List.filterMap_cons]
    | error e => simp [loadStep, hf, okFrames, failReports, List.filterMap_cons]

theorem loadLoop_eq (files : List String) (fetch : String → Except String DataFrame) :
    loadLoop files fetch = (okFrames files fetch, failReports files fetch) := by
  rw [loadLoop, loadLoop_foldl]
  simp

theorem mem_concatFrames (frames : List DataFrame) (g : DataFrame) (hg : g ∈ frames)
    (row : List Cell) (hrow : row ∈ g.rows) :
    alignRow g.cols (unionCols frames) row ∈ (concatFrames frames).rows := by
  show alignRow g.cols (unionCols frames) row ∈
    (frames.map (fun g2 => g2.rows.map (alignRow g2.cols (unionCols frames)))).flatten
  rw [List.mem_flatten]
  refine ⟨g.rows.map (alignRow g.cols (unionCols frames)), ?_, ?_⟩
  · exact List.mem_map.mpr ⟨g, hg, rfl⟩
  · exact List.mem_map.mpr ⟨row, hrow, rfl⟩

theorem unionCols_const (cs : List String) :
    ∀ (frames : List DataFrame), (∀ g ∈ frames, g.cols = cs) → frames ≠ [] →
      unionCols frames = cs := by
  have step : ∀ (fs : List DataFrame), (∀ g ∈ fs, g.cols = cs) →
      fs.foldl (fun acc g => acc ++ g.cols.filter (fun c => !(decide (c ∈ acc)))) cs
        = cs := by
    intro fs
    induction fs with
    | nil => intro _; rfl
    | cons g fs ih =>
      intro hall
      rw [List.foldl_cons]
      have hg : g.cols = cs := hall g (List.mem_cons_self g fs)
      have hnil : cs ++ (g.cols.filter (fun c => !(decide (c ∈ cs)))) = cs := by
        rw [hg]
        have : cs.filter (fun c => !(decide (c ∈ cs))) = [] := by
          apply List.filter_eq_nil_iff.mpr
          intro a ha
          simp [ha]
        rw [this, List.append_nil]
      rw [hnil]
      exact ih (fun g2 hg2 => hall g2 (List.mem_cons_of_mem g hg2))
  intro frames hall hne
  cases frames with
  | nil => exact absurd rfl hne
  | cons g fs =>
    unfold unionCols
    rw [List.foldl_cons]
    have hg : g.cols = cs := hall g (List.mem_cons_self g fs)
    have h0 : ([] : List String)
        ++ (g.cols.filter (fun c => !(decide (c ∈ ([] : List String))))) = cs := by
      rw [hg]
      simp
    rw [h0]
    exact step fs (fun g2 hg2 => hall g2 (List.mem_cons_of_mem g hg2))

theorem alignRow_id (cols : List String) (hnd : cols.Nodup) (row : List Cell)
    (hlen : row.length = cols.length) : alignRow cols cols row = row := by
  apply List.ext_getElem
  · simp [alignRow, hlen]
  · intro k h1 h2
    unfold alignRow
    rw [List.getElem_map]
    have hk : k < cols.length := by rw [← hlen]; exact h2
    have hcix : colIndex? cols (cols.getD k "") = some k :=
      colIndex?_nodup_get cols hnd k hk
    rw [List.getD_eq_getElem cols "" hk] at hcix
    rw [hcix]
    exact List.getD_eq_getElem row Cell.na h2

/-! ## Ordering by model name -/

theorem listCharLe_total : ∀ (l m : List Char),
    listCharLe l m = true ∨ listCharLe m l = true := by
  intro l
  induction l with
  | nil => intro m; exact Or.inl rfl
  | cons a as ih =>
    intro m
    cases m with
    | nil => exact Or.inr rfl
    | cons b bs =>
      by_cases hab : a.toNat < b.toNat
      · exact Or.inl (by simp [listCharLe, hab])
      · by_cases hba : b.toNat < a.toNat
        · exact Or.inr (by simp [listCharLe, hba])
        · rcases ih bs with h | h
          · exact Or.inl (by simp [listCharLe, hab, hba, h])
          · exact Or.inr (by simp [listCharLe, hba, hab, h])

theorem listCharLe_trans : ∀ (l m n : List Char), listCharLe l m = true →
    listCharLe m n = true → listCharLe l n = true := by
  intro l
  induction l with
  | nil => intro m n _ _; rfl
  | cons a as ih =>
    intro m n h1 h2
    cases m with
    | nil => simp [listCharLe] at h1
    | cons b bs =>
      cases n with
      | nil => simp [listCharLe] at h2
      | cons c cs =>
        simp only [listCharLe] at h1 h2 ⊢
        by_cases hab : a.toNat < b.toNat
        · by_cases hbc : b.toNat < c.toNat
          · have hac : a.toNat < c.toNat := Nat.lt_trans hab hbc
            simp [hac]
          · by_cases hcb : c.toNat < b.toNat
            · rw [if_neg hbc, if_pos hcb] at h2
              exact absurd h2 (by simp)
            · have hac : a.toNat < c.toNat := by omega
              simp [hac]
        · by_cases hba : b.toNat < a.toNat
          · rw [if_neg hab, if_pos hba] at h1
            exact absurd h1 (by simp)
          · rw [if_neg hab, if_neg hba] at h1
            by_cases hbc : b.toNat < c.toNat
            · have hac : a.toNat < c.toNat := by omega
              simp [hac]
            · by_cases hcb : c.toNat < b.toNat
              · rw [if_neg hbc, if_pos hcb] at h2
                exact absurd h2 (by simp)
              · rw [if_neg hbc, if_neg hcb] at h2
                have hac : ¬ a.toNat < c.toNat := by omega
                have hca : ¬ c.toNat < a.toNat := by omega
                rw [if_neg hac, if_neg hca]
                exact ih bs cs h1 h2

theorem strLe_total (a b : String) : strLe a b = true ∨ strLe b a = true :=
  listCharLe_total a.data b.data

theorem strLe_trans (a b c : String) (h1 : strLe a b = true)
    (h2 : strLe b c = true) : strLe a c = true :=
  listCharLe_trans a.data b.data c.data h1 h2

theorem insertByModel_perm (r : VerseRecord) :
    ∀ l : List VerseRecord, List.Perm (insertByModel r l) (r :: l) := by
  intro l
  induction l with
  | nil => exact List.Perm.refl _
  | cons x xs ih =>
    unfold insertByModel
    by_cases h : strLe r.model x.model = true
    · rw [if_pos h]
    · rw [if_neg h]
      exact List.Perm.trans (List.Perm.cons x ih) (List.Perm.swap r x xs)

theorem sortByModel_perm : ∀ l : List VerseRecord, List.Perm (sortByModel l) l := by
  intro l
  induction l with
  | nil => exact List.Perm.refl _
  | cons a l ih =>
    exact List.Perm.trans (insertByModel_perm a (sortByModel l)) (List.Perm.cons a ih)

theorem mem_insertByModel (r y : VerseRecord) :
    ∀ l, y ∈ insertByModel r l → y = r ∨ y ∈ l := by
  intro l
  induction l with
  | nil =>
    intro h
    exact Or.inl (List.mem_singleton.mp h)
  | cons x xs ih =>
    intro h
    unfold insertByModel at h
    by_cases hc : strLe r.model x.model = true
    · rw [if_pos hc] at h
      rcases List.mem_cons.mp h with h | h
      · exact Or.inl h
      · exact Or.inr h
    · rw [if_neg hc] at h
      rcases List.mem_cons.mp h with h | h
      · exact Or.inr (by rw [h]; exact List.mem_cons_self x xs)
      · rcases ih h with h | h
        · exact Or.inl h
        · exact Or.inr (List.mem_cons_of_mem x h)

theorem pairwise_insertByModel (r : VerseRecord) :
    ∀ l, List.Pairwise (fun a b => strLe a.model b.model = true) l →
      List.Pairwise (fun a b => strLe a.model b.model = true) (insertByModel r l) := by
  intro l
  induction l with
  | nil => intro _; exact List.pairwise_singleton _ r
  | cons x xs ih =>
    intro hp
    rcases List.pairwise_cons.mp hp with ⟨hx, hxs⟩
    unfold insertByModel
    by_cases hc : strLe r.model x.model = true
    · rw [if_pos hc]
      refine List.pairwise_cons.mpr ⟨?_, hp⟩
      intro y hy
      rcases List.mem_cons.mp hy with h | h
      · rw [h]; exact hc
      · exact strLe_trans r.model x.model y.model hc (hx y h)
    · rw [if_neg hc]
      refine List.pairwise_cons.mpr ⟨?_, ih hxs⟩
      intro y hy
      rcases mem_insertByModel r y xs hy with h | h
      · rcases strLe_total r.model x.model with ht | ht
        · exact absurd ht hc
        · rw [h]; exact ht
      · exact hx y h

theorem sortByModel_sorted : ∀ l : List VerseRecord,
    List.Pairwise (fun a b => strLe a.model b.model = true) (sortByModel l) := by
  intro l
  induction l with
  | nil => exact List.Pairwise.nil
  | cons a l ih => exact pairwise_insertByModel a (sortByModel l) ih

/-! ## Claim theorems -/

/-- Claim C1: for every corpus and every chapter, verse and non-empty model
set, the selection stage returns exactly the corpus records with
`record.chapter == chapter`, `record.verse == verse` and
`record.model ∈ model_set`, and no others, ordered by model display name
ascending. -/
theorem C1_selection (corpus : List VerseRecord) (c v : Int)
    (models : List String) (hne : models ≠ []) :
    List.Perm (sortByModel (selectRecords corpus c v models))
      (selectRecords corpus c v models) ∧
    (∀ r, r ∈ sortByModel (selectRecords corpus c v models) ↔
      r ∈ corpus ∧ r.chapter = c ∧ r.verse = v ∧ r.model ∈ models) ∧
    List.Pairwise (fun a b => strLe a.model b.model = true)
      (sortByModel (selectRecords corpus c v models)) := by
  refine ⟨sortByModel_perm _, ?_, sortByModel_sorted _⟩
  intro r
  rw [(sortByModel_perm _).mem_iff]
  unfold selectRecords
  rw [List.mem_filter]
  unfold matchesSelection
  simp

/-- Witness for C1 at a concrete corpus, verse and model set. -/
theorem C1_selection_witness :
    (recA ∈ sortByModel (selectRecords [recB, recA] 1 1 ["A"]) ↔
      recA ∈ [recB, recA] ∧ recA.chapter = 1 ∧ recA.verse = 1 ∧
        recA.model ∈ ["A"]) ∧
    List.Pairwise (fun a b => strLe a.model b.model = true)
      (sortByModel (selectRecords [recB, recA] 1 1 ["A"])) := by
  have h := C1_selection [recB, recA] 1 1 ["A"] (by decide)
  exact ⟨h.2.1 recA, h.2.2⟩

/-- Claim C2, counterexample: the presenter takes the first non-missing
`orig` of the filtered records in corpus order (line 159 runs before the
sort of line 171), not in sorted-model order; with corpus order B then A the
rendered header is B's "x" while the sorted-model order would give A's "y". -/
theorem C2_counterexample :
    sharedHeader hdrRowsCex = some "x" ∧
    sharedHeaderSpec hdrRowsCex = some "y" ∧
    sharedHeader hdrRowsCex ≠ sharedHeaderSpec hdrRowsCex := by
  refine ⟨by decide, by decide, by decide⟩

/-- Claim C2 (amended): the presenter renders as shared header the first
non-missing, whitespace-trimmed `original_text` taken in the order the
matched records appear (the corpus order of the filtered selection, before
any sorting); if no matched record has a non-missing `original_text` the
header section is omitted entirely. -/
theorem C2_header_selection_order :
    (∀ (pre post : List VerseRecord) (r : VerseRecord) (t : String),
        (∀ x ∈ pre, x.orig = none) → r.orig = some t →
        sharedHeader (pre ++ r :: post) = some (pyStrip t)) ∧
    (∀ rows : List VerseRecord, (∀ x ∈ rows, x.orig = none) →
        sharedHeader rows = none) := by
  constructor
  · intro pre post r t hpre hr
    unfold sharedHeader
    rw [List.filterMap_append]
    have hnil : pre.filterMap (fun x => x.orig) = [] :=
      List.filterMap_eq_nil_iff.mpr (fun x hx => hpre x hx)
    rw [hnil, List.nil_append, List.filterMap_cons, hr]
  · intro rows hall
    unfold sharedHeader
    rw [List.filterMap_eq_nil_iff.mpr (fun x hx => hall x hx)]

/-- Witness for C2 (amended) at concrete record lists. -/
theorem C2_header_selection_order_witness :
    sharedHeader hdrRowsCex = some (pyStrip "x") ∧
    sharedHeader [⟨1, 1, "A", none, none, none⟩] = none := by
  constructor
  · exact C2_header_selection_order.1 [] [⟨1, 1, "A", some "y", none, none⟩]
      ⟨1, 1, "B", some "x", none, none⟩ "x" (by simp) rfl
  · exact C2_header_selection_order.2 [⟨1, 1, "A", none, none, none⟩] (by decide)

/-- Claim C7: whenever the model set is empty the view short-circuits before
the filtering step into the "please select a model" prompt; nothing is
filtered or rendered in that state. -/
theorem C7_empty_models_prompt (corpus : List VerseRecord) (c v : Int) :
    runView corpus c v [] = ViewResult.prompt := rfl

/-- Claim C8: every section starts with the model-name heading; a labelled
quoted translation block appears iff the record's translation is present and
non-blank after trimming, an interpretation block likewise; with both blank
or missing the section is just the heading (and the closing divider), with
no placeholder text. -/
theorem C8_section_rendering (r : VerseRecord) :
    ∃ tb ib : List String,
      renderSection r = ["### " ++ r.model] ++ tb ++ ib ++ ["---"] ∧
      (if nonBlank r.translation = true then
          tb = ["**Translation**", "> " ++ pyStrip (r.translation.getD "")]
        else tb = []) ∧
      (if nonBlank r.interpretation = true then
          ib = ["**Interpretation**", pyStrip (r.interpretation.getD "")]
        else ib = []) ∧
      (nonBlank r.translation = false → nonBlank r.interpretation = false →
          renderSection r = ["### " ++ r.model, "---"]) ∧
      (nonBlank r.translation = true ↔
          ∃ t, r.translation = some t ∧ pyStrip t ≠ "") ∧
      (nonBlank r.interpretation = true ↔
          ∃ t, r.interpretation = some t ∧ pyStrip t ≠ "") := by
  refine ⟨if nonBlank r.translation = true then
      ["**Translation**", "> " ++ pyStrip (r.translation.getD "")] else [],
    if nonBlank r.interpretation = true then
      ["**Interpretation**", pyStrip (r.interpretation.getD "")] else [],
    ?_, ?_, ?_, ?_, ?_, ?_⟩
  · unfold renderSection
    by_cases h1 : nonBlank r.translation = true <;>
      by_cases h2 : nonBlank r.interpretation = true <;>
      simp [h1, h2]
  · split <;> rfl
  · split <;> rfl
  · intro h1 h2
    unfold renderSection
    simp [h1, h2]
  · cases ht : r.translation with
    | none => simp [nonBlank]
    | some t => simp [nonBlank]
  · cases ht : r.interpretation with
    | none => simp [nonBlank]
    | some t => simp [nonBlank]

/-- Witness for C8 at concrete records: a translation-only record and a
record with neither field. -/
theorem C8_section_rendering_witness :
    renderSection recA = ["### A", "**Translation**", "> alpha", "---"] ∧
    renderSection ⟨1, 1, "N", none, none, none⟩ = ["### N", "---"] := by
  constructor
  · obtain ⟨tb, ib, hmain, ht, hi, _, _, _⟩ := C8_section_rendering recA
    rw [if_pos (by decide)] at ht
    rw [if_neg (by decide)] at hi
    rw [ht, hi] at hmain
    rw [hmain]
    decide
  · obtain ⟨_, _, _, _, _, hboth, _, _⟩ :=
      C8_section_rendering ⟨1, 1, "N", none, none, none⟩
    exact hboth (by decide) (by decide)

/-- Claim C9: a second invocation of the loader with the unchanged, fixed
resource list inside the memoization window performs no additional network
fetches and returns a corpus identical to the first invocation's
(spec-modelled cache: `st.cache_data` is Streamlit behaviour, not in src). -/
theorem C9_memoized_idempotent (files : List String)
    (fetch : String → Except String DataFrame) :
    (cachedLoadAll files fetch ((cachedLoadAll files fetch none).2.1)).1 =
      (cachedLoadAll files fetch none).1 ∧
    (cachedLoadAll files fetch ((cachedLoadAll files fetch none).2.1)).2.2 = 0 :=
  ⟨rfl, rfl⟩

/-- Claim C5: a fetch or parse failure of one resource does not abort the
rest: the loop records exactly one `display_name: error` report per failing
resource (and nothing else), every fetchable-and-parseable resource's tagged
frame enters the frame list, and each such frame's rows all appear (aligned
to the union columns) in the merged table. -/
theorem C5_per_resource_isolation (files : List String)
    (fetch : String → Except String DataFrame) :
    loadLoop files fetch = (okFrames files fetch, failReports files fetch) ∧
    (∀ f e, f ∈ files → fetch f = Except.error e →
      displayNameOf f ++ ": " ++ e ∈ failReports files fetch) ∧
    (∀ f df, f ∈ files → fetch f = Except.ok df →
      tagModel df (displayNameOf f) ∈ okFrames files fetch) ∧
    (∀ g ∈ okFrames files fetch, ∀ row ∈ g.rows,
      alignRow g.cols (unionCols (okFrames files fetch)) row ∈
        (concatFrames (okFrames files fetch)).rows) := by
  refine ⟨loadLoop_eq files fetch, ?_, ?_, ?_⟩
  · intro f e hf he
    unfold failReports
    exact List.mem_filterMap.mpr ⟨f, hf, by simp [he]⟩
  · intro f df hf hok
    unfold okFrames
    exact List.mem_filterMap.mpr ⟨f, hf, by simp [hok]⟩
  · intro g hg row hrow
    exact mem_concatFrames _ g hg row hrow

/-- Witness for C5 with one succeeding and one failing resource. -/
theorem C5_per_resource_isolation_witness :
    loadLoop ["a.csv", "b.csv"] fetchMixWit =
      (okFrames ["a.csv", "b.csv"] fetchMixWit,
       failReports ["a.csv", "b.csv"] fetchMixWit) ∧
    "b: HTTP 404" ∈ failReports ["a.csv", "b.csv"] fetchMixWit := by
  have h := C5_per_resource_isolation ["a.csv", "b.csv"] fetchMixWit
  refine ⟨h.1, ?_⟩
  have hm := h.2.1 "b.csv" "HTTP 404" (by decide) rfl
  have hname : displayNameOf "b.csv" ++ ": " ++ "HTTP 404" = "b: HTTP 404" := by
    decide
  rw [hname] at hm
  exact hm

/-- Claim C6: if zero resources succeed, `load_all` fails fatally with the
blocking error and no partial corpus, so the app halts before the selection
stage. -/
theorem C6_total_failure_halts (files : List String)
    (fetch : String → Except String DataFrame) (c v : Int)
    (models : List String) (h : ∀ f ∈ files, ∃ e, fetch f = Except.error e) :
    load_all_from files fetch = Except.error loadFailMsg ∧
    runApp files fetch c v models = AppOutcome.halted loadFailMsg := by
  have hok : okFrames files fetch = [] := by
    apply List.filterMap_eq_nil_iff.mpr
    intro f hf
    obtain ⟨e, he⟩ := h f hf
    simp [he]
  have hcomb : combinedNormOf files fetch = none := by
    unfold combinedNormOf
    rw [loadLoop_eq, hok]
    rfl
  have hload : load_all_from files fetch = Except.error loadFailMsg := by
    unfold load_all_from
    rw [hcomb]
  refine ⟨hload, ?_⟩
  unfold runApp
  rw [hload]

/-- Witness for C6: one resource, which times out. -/
theorem C6_total_failure_halts_witness :
    load_all_from ["a.csv"] (fun _ => Except.error "timeout")
      = Except.error loadFailMsg ∧
    runApp ["a.csv"] (fun _ => Except.error "timeout") 1 1 ["M"]
      = AppOutcome.halted loadFailMsg :=
  C6_total_failure_halts ["a.csv"] (fun _ => Except.error "timeout") 1 1 ["M"]
    (fun _ _ => ⟨"timeout", rfl⟩)

theorem rowPipeline_some_int (i j : Nat) (hij : i ≠ j) (r0 out : List Cell)
    (h : rowPipeline i j r0 = some out) :
    (∃ n, out.getD i Cell.na = Cell.int n) ∧
      ∃ m, out.getD j Cell.na = Cell.int m := by
  simp only [rowPipeline] at h
  set c := toNumericCell (r0.getD i Cell.na) with hc
  set X1 := r0.set i c with hX1
  set v := toNumericCell (X1.getD j Cell.na) with hv
  set X2 := X1.set j v with hX2
  split at h
  · cases h
  · rename_i hguard
    push_neg at hguard
    cases h
    have hilen : i < r0.length := by
      by_contra hge
      refine hguard.1 ?_
      rw [hc, getD_na_of_ge r0 i (Nat.le_of_not_lt hge)]
      rfl
    have hjlen : j < X1.length := by
      by_contra hge
      refine hguard.2 ?_
      rw [hv, getD_na_of_ge X1 j (Nat.le_of_not_lt hge)]
      rfl
    have hX2len : X2.length = X1.length := by
      rw [hX2]
      exact List.length_set X1 j v
    have hX1len : X1.length = r0.length := by
      rw [hX1]
      exact List.length_set r0 i c
    constructor
    · refine ⟨cellTruncInt c, ?_⟩
      rw [getD_set_other _ j i _ (fun hh => hij hh.symm)]
      apply getD_set_self
      rw [hX2len, hX1len]
      exact hilen
    · refine ⟨cellTruncInt v, ?_⟩
      apply getD_set_self
      rw [List.length_set, hX2len]
      exact hjlen

/-- Claim C3, counterexample: the claimed invariant is positivity of
`chapter` and `verse`, but a row whose chapter is the numeric string "0"
survives normalisation with the non-positive integer chapter 0. -/
theorem C3_counterexample :
    load_all_from ["f.csv"] fetchPosCex = Except.ok (dfPosCex, []) ∧
    ¬ corpusChapterVersePos dfPosCex := by
  constructor
  · rfl
  · unfold corpusChapterVersePos
    decide

/-- Claim C3 (amended): every row of the corpus `load_all` returns has
integer `chapter` and `verse` cells (positivity is not enforced), the corpus
rows are exactly the coerced images of the merged rows on which both
coercions succeed, and any merged row whose `chapter` or `verse` fails
numeric coercion is dropped by the pipeline and never reaches the corpus. -/
theorem C3_integer_rows (files : List String)
    (fetch : String → Except String DataFrame) (df : DataFrame)
    (errs : List String) (h : load_all_from files fetch = Except.ok (df, errs)) :
    (∀ row ∈ df.rows, (∃ n, colCellOf df.cols row "chapter" = Cell.int n) ∧
      ∃ m, colCellOf df.cols row "verse" = Cell.int m) ∧
    ∃ comb i j, combinedNormOf files fetch = some comb ∧
      df.rows = comb.rows.filterMap (rowPipeline i j) ∧
      ∀ row ∈ comb.rows,
        (toNumericCell (row.getD i Cell.na) = Cell.na ∨
         toNumericCell (row.getD j Cell.na) = Cell.na) →
        rowPipeline i j row = none := by
  obtain ⟨comb, i, j, hc, hi, hci, hj, hcj, hij, hcols, hrows, herrs⟩ :=
    load_all_ok_inv files fetch df errs h
  constructor
  · intro row hrowmem
    rw [hrows] at hrowmem
    obtain ⟨r0, hr0, hsome⟩ := List.mem_filterMap.mp hrowmem
    have hint := rowPipeline_some_int i j hij r0 row hsome
    have hcc : colCellOf df.cols row "chapter" = row.getD i Cell.na := by
      unfold colCellOf
      rw [hcols, hi]
    have hcv : colCellOf df.cols row "verse" = row.getD j Cell.na := by
      unfold colCellOf
      rw [hcols, hj]
    rw [hcc, hcv]
    exact hint
  · refine ⟨comb, i, j, hc, hrows, ?_⟩
    intro row _ hna
    have hset : (row.set i (toNumericCell (row.getD i Cell.na))).getD j Cell.na
        = row.getD j Cell.na := getD_set_other row i j _ hij
    simp only [rowPipeline]
    rcases hna with hna | hna
    · rw [hna]
      simp
    · rw [hset, hna]
      simp

/-- Witness for C3 (amended) at the concrete corpus of `fetchPosCex`. -/
theorem C3_integer_rows_witness :
    (∃ n, colCellOf dfPosCex.cols
        [Cell.int 0, Cell.int 1, Cell.str "t", Cell.str "f"] "chapter"
        = Cell.int n) ∧
    ∃ m, colCellOf dfPosCex.cols
        [Cell.int 0, Cell.int 1, Cell.str "t", Cell.str "f"] "verse"
        = Cell.int m :=
  (C3_integer_rows ["f.csv"] fetchPosCex dfPosCex [] rfl).1
    [Cell.int 0, Cell.int 1, Cell.str "t", Cell.str "f"] (by decide)

/-- Claim C10: a merged row whose `chapter` and `verse` strings parse as
numbers (integer or not) is kept; the final cast truncates each value toward
zero, so chapter "1.9" yields the integer 1; and a row `rowPipeline` drops
was dropped only because `to_numeric` coerced its chapter or verse to NaN,
i.e. the value failed numeric parsing entirely. -/
theorem C10_noninteger_truncated (files : List String)
    (fetch : String → Except String DataFrame) (df : DataFrame)
    (errs : List String) (comb : DataFrame) (i j : Nat)
    (h : load_all_from files fetch = Except.ok (df, errs))
    (hc : combinedNormOf files fetch = some comb)
    (hi : colIndex? comb.cols "chapter" = some i)
    (hj : colIndex? comb.cols "verse" = some j)
    (row : List Cell) (hrow : row ∈ comb.rows) (s t : String) (q p : Rat)
    (hs : row.getD i Cell.na = Cell.str s) (hq : parseNumeric s = some q)
    (ht : row.getD j Cell.na = Cell.str t) (hp : parseNumeric t = some p) :
    ((((row.set i (Cell.num q)).set j (Cell.num p)).set i
        (Cell.int (truncRat q))).set j (Cell.int (truncRat p))) ∈ df.rows ∧
    ∀ row2, rowPipeline i j row2 = none →
      toNumericCell (row2.getD i Cell.na) = Cell.na ∨
        toNumericCell (row2.getD j Cell.na) = Cell.na := by
  obtain ⟨comb2, i2, j2, hc2, hi2, hci2, hj2, hcj2, hij2, hcols, hrows, _⟩ :=
    load_all_ok_inv files fetch df errs h
  rw [hc] at hc2
  cases hc2
  rw [hi] at hi2
  cases hi2
  rw [hj] at hj2
  cases hj2
  have hij : i ≠ j := colIndex?_ne comb.cols "chapter" "verse" i j hi hj (by decide)
  constructor
  · rw [hrows]
    apply List.mem_filterMap.mpr
    refine ⟨row, hrow, ?_⟩
    have hcq : toNumericCell (Cell.str s) = Cell.num q := by
      simp [toNumericCell, hq]
    have hgj : (row.set i (Cell.num q)).getD j Cell.na = Cell.str t := by
      rw [getD_set_other row i j _ hij]
      exact ht
    have hcp : toNumericCell (Cell.str t) = Cell.num p := by
      simp [toNumericCell, hp]
    simp only [rowPipeline]
    rw [hs, hcq, hgj, hcp]
    rw [if_neg (by simp)]
    rfl
  · intro row2 hnone
    simp only [rowPipeline] at hnone
    by_cases h1 : toNumericCell (row2.getD i Cell.na) = Cell.na
    · exact Or.inl h1
    · refine Or.inr ?_
      rw [← getD_set_other row2 i j (toNumericCell (row2.getD i Cell.na)) hij]
      by_contra h2
      rw [if_neg (by tauto)] at hnone
      cases hnone

/-- Witness for C10: a single resource whose only row has chapter "1.9" and
verse "2"; the corpus keeps the row with chapter truncated to 1. -/
theorem C10_noninteger_truncated_witness :
    (((([Cell.str "1.9", Cell.str "2", Cell.str "f"].set 0
        (Cell.num (mkRat 19 10))).set 1 (Cell.num 2)).set 0
        (Cell.int (truncRat (mkRat 19 10)))).set 1 (Cell.int (truncRat 2)))
      ∈ dfTruncWit.rows ∧ truncRat (mkRat 19 10) = 1 := by
  constructor
  · exact (C10_noninteger_truncated ["f.csv"] fetchTruncWit dfTruncWit []
      combTruncWit 0 1 rfl rfl rfl rfl
      [Cell.str "1.9", Cell.str "2", Cell.str "f"] (by decide)
      "1.9" "2" (mkRat 19 10) 2 rfl (by decide) rfl (by decide)).1
  · decide

theorem tagModel_no_model_col (g0 : DataFrame) (name : String)
    (hM : colIndex? g0.cols "Model" = none) :
    tagModel g0 name
      = ⟨g0.cols ++ ["Model"], g0.rows.map (fun r => r ++ [Cell.str name])⟩ := by
  simp only [tagModel, hM]

/-- Claim C4, counterexample: two resources whose headers differ only in
casing ("Chapter"/"Verse" vs "chapter"/"verse") do not contribute to the same
normalised columns — normalisation runs only after concatenation, the union
table carries both spellings, the renamed table has two "chapter" columns,
and the chapter coercion aborts the load; no values survive. -/
theorem C4_counterexample :
    load_all_from ["a.csv", "b.csv"] fetchCaseCex =
      Except.error "TypeError: arg must be a list, tuple, 1-d array, or Series" ∧
    exceptIsOk (load_all_from ["a.csv", "b.csv"] fetchCaseCex) = false :=
  ⟨rfl, rfl⟩

/-- Claim C4 (amended): column names are trimmed and lower-cased after
concatenation and before the corpus is used, so a resource set whose raw
headers agree letter-for-letter (even non-lowercase or padded ones)
contributes its rows through the common normalised column set and the load
succeeds; resources whose headers differ from each other only in casing or
whitespace instead produce duplicate normalised columns and the load fails
(see the counterexample) rather than merging them. -/
theorem C4_normalization (files : List String)
    (fetch : String → Except String DataFrame) (cs : List String)
    (hne : okFrames files fetch ≠ [])
    (hcols : ∀ f ∈ files, ∀ g, fetch f = Except.ok g → g.cols = cs)
    (hwf : ∀ f ∈ files, ∀ g, fetch f = Except.ok g → ∀ row ∈ g.rows,
      row.length = cs.length)
    (hnd : cs.Nodup) (hM : "Model" ∉ cs)
    (hch : countCol (cs.map normalizeName) "chapter" = 1)
    (hvs : countCol (cs.map normalizeName) "verse" = 1) :
    ∃ df errs i j, load_all_from files fetch = Except.ok (df, errs) ∧
      df.cols = cs.map normalizeName ++ ["model"] ∧
      df.rows = (((okFrames files fetch).map (fun g => g.rows)).flatten).filterMap
        (rowPipeline i j) := by
  have htag : ∀ g ∈ okFrames files fetch, g.cols = cs ++ ["Model"] ∧
      ∀ row ∈ g.rows, row.length = (cs ++ ["Model"]).length := by
    intro g hg
    unfold okFrames at hg
    obtain ⟨f, hf, hmatch⟩ := List.mem_filterMap.mp hg
    cases hfe : fetch f with
    | error e =>
      simp only [hfe] at hmatch
      exact Option.noConfusion hmatch
    | ok g0 =>
      simp only [hfe, Option.some.injEq] at hmatch
      have hg0cols : g0.cols = cs := hcols f hf g0 hfe
      have hMnone : colIndex? g0.cols "Model" = none := by
        rw [hg0cols]
        exact colIndex?_eq_none cs "Model" hM
      rw [← hmatch, tagModel_no_model_col g0 _ hMnone]
      constructor
      · rw [hg0cols]
      · intro row hrow
        obtain ⟨r0, hr0mem, hr0⟩ := List.mem_map.mp hrow
        rw [← hr0, List.length_append, hwf f hf g0 hfe r0 hr0mem]
        simp
  have hcolsAll : ∀ g ∈ okFrames files fetch, g.cols = cs ++ ["Model"] :=
    fun g hg => (htag g hg).1
  have hU : unionCols (okFrames files fetch) = cs ++ ["Model"] :=
    unionCols_const (cs ++ ["Model"]) (okFrames files fetch) hcolsAll hne
  have hndU : (cs ++ ["Model"]).Nodup := by
    rw [List.nodup_append]
    refine ⟨hnd, List.nodup_singleton _, ?_⟩
    intro a ha hb
    rw [List.mem_singleton] at hb
    exact hM (hb ▸ ha)
  have halign : ∀ g ∈ okFrames files fetch,
      g.rows.map (alignRow g.cols (cs ++ ["Model"])) = g.rows := by
    intro g hg
    obtain ⟨hgc, hglen⟩ := htag g hg
    have hpt : ∀ row ∈ g.rows, alignRow g.cols (cs ++ ["Model"]) row = id row := by
      intro row hrow
      rw [hgc]
      exact alignRow_id (cs ++ ["Model"]) hndU row (hglen row hrow)
    rw [List.map_congr_left hpt, List.map_id]
  have hcf : concatFrames (okFrames files fetch)
      = ⟨cs ++ ["Model"],
         ((okFrames files fetch).map (fun g => g.rows)).flatten⟩ := by
    simp only [concatFrames, hU]
    congr 1
    congr 1
    exact List.map_congr_left halign
  have hnorm : normalizeCols (concatFrames (okFrames files fetch))
      = ⟨(cs ++ ["Model"]).map normalizeName,
         ((okFrames files fetch).map (fun g => g.rows)).flatten⟩ := by
    rw [hcf]
    rfl
  have hene : (okFrames files fetch).isEmpty = false := by
    cases hokf : okFrames files fetch with
    | nil => exact absurd hokf hne
    | cons a l => rfl
  have hcombNorm : combinedNormOf files fetch
      = some ⟨(cs ++ ["Model"]).map normalizeName,
          ((okFrames files fetch).map (fun g => g.rows)).flatten⟩ := by
    unfold combinedNormOf
    rw [loadLoop_eq]
    show (if (okFrames files fetch).isEmpty = true then none
      else some (normalizeCols (concatFrames (okFrames files fetch))))
      = some _
    rw [hene]
    simp only [Bool.false_eq_true, if_false]
    rw [hnorm]
  have hcombcols : (cs ++ ["Model"]).map normalizeName
      = cs.map normalizeName ++ ["model"] := by
    rw [List.map_append]
    rfl
  have hcntc : countCol ((cs ++ ["Model"]).map normalizeName) "chapter" = 1 := by
    rw [hcombcols, countCol_append, hch]
    decide
  have hcntv : countCol ((cs ++ ["Model"]).map normalizeName) "verse" = 1 := by
    rw [hcombcols, countCol_append, hvs]
    decide
  obtain ⟨i, hi⟩ := colIndex?_of_count_pos ((cs ++ ["Model"]).map normalizeName)
    "chapter" (by rw [hcntc]; exact Nat.one_pos)
  obtain ⟨j, hj⟩ := colIndex?_of_count_pos ((cs ++ ["Model"]).map normalizeName)
    "verse" (by rw [hcntv]; exact Nat.one_pos)
  have hpipe := normalizePipeline_ok
    ⟨(cs ++ ["Model"]).map normalizeName,
     ((okFrames files fetch).map (fun g => g.rows)).flatten⟩ i j hi hcntc hj hcntv
  refine ⟨⟨(cs ++ ["Model"]).map normalizeName,
      (((okFrames files fetch).map (fun g => g.rows)).flatten).filterMap
        (rowPipeline i j)⟩,
    failReports files fetch, i, j, ?_, ?_, ?_⟩
  · unfold load_all_from
    rw [hcombNorm]
    show (match normalizePipeline ⟨(cs ++ ["Model"]).map normalizeName,
        ((okFrames files fetch).map (fun g => g.rows)).flatten⟩ with
      | Except.error e => Except.error e
      | Except.ok df => Except.ok (df, (loadLoop files fetch).2)) = _
    rw [hpipe, loadLoop_eq]
  · exact hcombcols
  · rfl

/-- Witness for C4 (amended): one resource with non-normalised headers
"Chapter" and " Verse " loads successfully. -/
theorem C4_normalization_witness :
    exceptIsOk (load_all_from ["a.csv"] fetchCaseWit) = true := by
  obtain ⟨df, errs, i, j, hload, _, _⟩ :=
    C4_normalization ["a.csv"] fetchCaseWit ["Chapter", " Verse "]
      (by decide)
      (fun f _ g hg => by cases hg; rfl)
      (fun f _ g hg => by
        cases hg
        intro row hrow
        simp only [List.mem_singleton] at hrow
        rw [hrow]
        rfl)
      (by decide) (by decide) (by decide) (by decide)
  rw [hload]
  rfl

end QAHA
